import Mathlib

/-!
Verification of the constellation background animation (`Constellation` class):
star creation, the per-frame update (position, wraparound, opacity drift,
velocity relaxation), line (edge) rebuilding, and pointer (mouse) influence.
Numbers are modelled as real numbers; calls to the random generator are
modelled as explicit streams of values in [0, 1).
-/

open scoped Classical

namespace ConstellationSpec

noncomputable section

/-- The configuration object set in the constructor (`this.config`). -/
structure Config where
  starDensity : ℝ
  maxDistance : ℝ
  starSizeMin : ℝ
  starSizeMax : ℝ
  opacityMin : ℝ
  opacityMax : ℝ
  speedMin : ℝ
  speedMax : ℝ
  mouseInfluence : ℝ
  mouseForce : ℝ

/-- The literal default configuration from the constructor. -/
def defaultConfig : Config where
  starDensity := 8000
  maxDistance := 130
  starSizeMin := 0.5
  starSizeMax := 2
  opacityMin := 0.2
  opacityMax := 0.8
  speedMin := -0.3
  speedMax := 0.3
  mouseInfluence := 100
  mouseForce := 0.00005

/-- A star (Point): the object literal pushed by `createStars`. -/
structure Star where
  x : ℝ
  y : ℝ
  size : ℝ
  opacity : ℝ
  vx : ℝ
  vy : ℝ
  originalVx : ℝ
  originalVy : ℝ

instance : Inhabited Star := ⟨⟨0, 0, 0, 0, 0, 0, 0, 0⟩⟩

/-- The pointer state `this.mouse`. -/
structure Mouse where
  x : ℝ
  y : ℝ

/-- `numStars = Math.floor((width * height) / starDensity)`; a negative
floor makes the creation loop run zero times, hence `Int.toNat`. -/
def numStars (width height : ℝ) (cfg : Config) : ℕ :=
  (⌊width * height / cfg.starDensity⌋).toNat

/-- The star object pushed inside the `createStars` loop; `r k` is the value
of the k-th `Math.random()` call for this star.  `originalVx`/`originalVy`
start at 0 and are filled in by `storeOriginal` afterwards. -/
def mkStarRaw (cfg : Config) (width height : ℝ) (r : ℕ → ℝ) : Star where
  x := r 0 * width
  y := r 1 * height
  size := r 2 * (cfg.starSizeMax - cfg.starSizeMin) + cfg.starSizeMin
  opacity := r 3 * (cfg.opacityMax - cfg.opacityMin) + cfg.opacityMin
  vx := (r 4 - 0.5) * (cfg.speedMax - cfg.speedMin) + cfg.speedMin
  vy := (r 5 - 0.5) * (cfg.speedMax - cfg.speedMin) + cfg.speedMin
  originalVx := 0
  originalVy := 0

/-- The `forEach` after the creation loop: `star.originalVx = star.vx` etc. -/
def storeOriginal (s : Star) : Star :=
  { s with originalVx := s.vx, originalVy := s.vy }

/-- `createStars`: resets the star list and creates `numStars` stars;
`rand i k` is the k-th `Math.random()` value drawn for star i. -/
def createStars (width height : ℝ) (cfg : Config) (rand : ℕ → ℕ → ℝ) : List Star :=
  ((List.range (numStars width height cfg)).map fun i =>
    mkStarRaw cfg width height (rand i)).map storeOriginal

/-- The body of the `updateStars` forEach on one star: position update,
wraparound (two sequential `if`s per axis), opacity drift with clamp, and
velocity relaxation.  `r` is this star's `Math.random()` draw. -/
def updateStar (cfg : Config) (width height : ℝ) (r : ℝ) (s : Star) : Star :=
  let x1 := s.x + s.vx
  let y1 := s.y + s.vy
  let x2 := if x1 < 0 then width else x1
  let x3 := if x2 > width then 0 else x2
  let y2 := if y1 < 0 then height else y1
  let y3 := if y2 > height then 0 else y2
  let o1 := s.opacity + (r - 0.5) * 0.02
  { s with
    x := x3
    y := y3
    opacity := max cfg.opacityMin (min cfg.opacityMax o1)
    vx := s.vx + (s.originalVx - s.vx) * 0.01
    vy := s.vy + (s.originalVy - s.vy) * 0.01 }

/-- `updateStars`: the forEach over the star list; `rand i` is the random
draw used by star i's opacity drift. -/
def updateStars (cfg : Config) (width height : ℝ) (rand : ℕ → ℝ)
    (stars : List Star) : List Star :=
  stars.mapIdx fun i s => updateStar cfg width height (rand i) s

/-- `Math.sqrt(dx*dx + dy*dy)` for `dx = a.x - b.x`, `dy = a.y - b.y`. -/
def starDist (a b : Star) : ℝ :=
  Real.sqrt ((a.x - b.x) * (a.x - b.x) + (a.y - b.y) * (a.y - b.y))

/-- A line (Edge) object as pushed by `createLines` (`end` renamed `stop`). -/
structure Line where
  start : Star
  stop : Star
  opacity : ℝ
  distance : ℝ

/-- The index pairs visited by the double loop of `createLines`:
`i` over `0..n-1`, `j` over `i+1..n-1`. -/
def indexPairs (n : ℕ) : List (ℕ × ℕ) :=
  (List.range n).flatMap fun i =>
    ((List.range n).filter fun j => i < j).map fun j => (i, j)

/-- `createLines`: rebuilds `this.lines` from scratch, pushing an edge for
every visited pair whose distance is strictly below `maxDistance`. -/
def createLines (stars : List Star) (maxDistance : ℝ) : List Line :=
  (indexPairs stars.length).filterMap fun p =>
    let si := stars.getD p.1 default
    let sj := stars.getD p.2 default
    let d := starDist si sj
    if d < maxDistance then
      some { start := si, stop := sj
             opacity := (maxDistance - d) / maxDistance * 0.5
             distance := d }
    else none

/-- The index pairs for which `createLines` pushes an edge. -/
def linePairs (stars : List Star) (maxDistance : ℝ) : List (ℕ × ℕ) :=
  (indexPairs stars.length).filter fun p =>
    starDist (stars.getD p.1 default) (stars.getD p.2 default) < maxDistance

/-- The edge `createLines` pushes for the index pair `p`. -/
def mkLine (stars : List Star) (maxDistance : ℝ) (p : ℕ × ℕ) : Line :=
  let si := stars.getD p.1 default
  let sj := stars.getD p.2 default
  let d := starDist si sj
  { start := si, stop := sj
    opacity := (maxDistance - d) / maxDistance * 0.5
    distance := d }

/-- `Math.sqrt(dx*dx + dy*dy)` for `dx = mouse.x - star.x`, etc. -/
def mouseDist (m : Mouse) (s : Star) : ℝ :=
  Real.sqrt ((m.x - s.x) * (m.x - s.x) + (m.y - s.y) * (m.y - s.y))

/-- `force = (mouseInfluence - distance) / mouseInfluence`. -/
def pointerForceFactor (cfg : Config) (d : ℝ) : ℝ :=
  (cfg.mouseInfluence - d) / cfg.mouseInfluence

/-- The body of the `applyMouseInfluence` forEach on one star. -/
def applyMouseStar (cfg : Config) (m : Mouse) (s : Star) : Star :=
  let dx := m.x - s.x
  let dy := m.y - s.y
  let d := mouseDist m s
  if d < cfg.mouseInfluence then
    { s with
      vx := s.vx + dx * cfg.mouseForce * pointerForceFactor cfg d
      vy := s.vy + dy * cfg.mouseForce * pointerForceFactor cfg d }
  else s

/-- `applyMouseInfluence`: the forEach over the star list. -/
def applyMouseInfluence (cfg : Config) (m : Mouse) (stars : List Star) : List Star :=
  stars.map (applyMouseStar cfg m)

/-- The mutable state of a `Constellation` instance (the drawing context
and animation id are omitted: `draw` only reads the state). -/
structure Constellation where
  stars : List Star
  lins : List Line
  mouse : Mouse
  width : ℝ
  height : ℝ

/-- One `animate` frame without the draw call:
`updateStars(); createLines(); applyMouseInfluence();`.
`createLines` runs before `applyMouseInfluence`, but the latter only
changes velocities.  `rand i` is star i's opacity-drift draw. -/
def step (cfg : Config) (rand : ℕ → ℝ) (c : Constellation) : Constellation :=
  let stars1 := updateStars cfg c.width c.height rand c.stars
  { c with
    stars := applyMouseInfluence cfg c.mouse stars1
    lins := createLines stars1 cfg.maxDistance }

/-- `n` consecutive frames; `rand n i` is star i's draw in frame n. -/
def stepN (cfg : Config) (rand : ℕ → ℕ → ℝ) : ℕ → Constellation → Constellation
  | 0, c => c
  | n + 1, c => step cfg (rand n) (stepN cfg rand n c)

/-- The freshly initialized state: stars created from the surface size,
no lines yet, mouse at the origin. -/
def initState (width height : ℝ) (cfg : Config) (rand : ℕ → ℕ → ℝ) : Constellation :=
  { stars := createStars width height cfg rand
    lins := []
    mouse := ⟨0, 0⟩
    width := width
    height := height }

/-- The mousemove handler: overwrite `this.mouse`. -/
def setPointer (px py : ℝ) (c : Constellation) : Constellation :=
  { c with mouse := ⟨px, py⟩ }

/-- The mouseleave handler: reset `this.mouse` to the origin. -/
def clearPointer (c : Constellation) : Constellation :=
  { c with mouse := ⟨0, 0⟩ }

/-- Calling `createStars` again on an existing state (as the resize handler
does): the star list is rebuilt from scratch. -/
def recreateStars (cfg : Config) (rand : ℕ → ℕ → ℝ) (c : Constellation) : Constellation :=
  { c with stars := createStars c.width c.height cfg rand }

/-- The net per-frame effect on a single star (update then mouse). -/
def starFrameStep (cfg : Config) (width height : ℝ) (r : ℝ) (m : Mouse) (s : Star) : Star :=
  applyMouseStar cfg m (updateStar cfg width height r s)

/-- `n` frames on a single star with a fixed mouse position. -/
def starFrameStepN (cfg : Config) (width height : ℝ) (rand : ℕ → ℝ) (m : Mouse) :
    ℕ → Star → Star
  | 0, s => s
  | n + 1, s => starFrameStep cfg width height (rand n) m (starFrameStepN cfg width height rand m n s)

/-! ### Basic field and indexing lemmas -/

lemma applyMouseStar_x (cfg : Config) (m : Mouse) (s : Star) :
    (applyMouseStar cfg m s).x = s.x := by
  simp only [applyMouseStar]; split <;> rfl

lemma applyMouseStar_y (cfg : Config) (m : Mouse) (s : Star) :
    (applyMouseStar cfg m s).y = s.y := by
  simp only [applyMouseStar]; split <;> rfl

lemma applyMouseStar_opacity (cfg : Config) (m : Mouse) (s : Star) :
    (applyMouseStar cfg m s).opacity = s.opacity := by
  simp only [applyMouseStar]; split <;> rfl

lemma applyMouseStar_originalVx (cfg : Config) (m : Mouse) (s : Star) :
    (applyMouseStar cfg m s).originalVx = s.originalVx := by
  simp only [applyMouseStar]; split <;> rfl

lemma applyMouseStar_originalVy (cfg : Config) (m : Mouse) (s : Star) :
    (applyMouseStar cfg m s).originalVy = s.originalVy := by
  simp only [applyMouseStar]; split <;> rfl

lemma updateStar_originalVx (cfg : Config) (width height r : ℝ) (s : Star) :
    (updateStar cfg width height r s).originalVx = s.originalVx := rfl

lemma updateStar_originalVy (cfg : Config) (width height r : ℝ) (s : Star) :
    (updateStar cfg width height r s).originalVy = s.originalVy := rfl

lemma updateStar_vx (cfg : Config) (width height r : ℝ) (s : Star) :
    (updateStar cfg width height r s).vx = s.vx + (s.originalVx - s.vx) * 0.01 := rfl

lemma updateStar_vy (cfg : Config) (width height r : ℝ) (s : Star) :
    (updateStar cfg width height r s).vy = s.vy + (s.originalVy - s.vy) * 0.01 := rfl

lemma updateStar_opacity (cfg : Config) (width height r : ℝ) (s : Star) :
    (updateStar cfg width height r s).opacity =
      max cfg.opacityMin (min cfg.opacityMax (s.opacity + (r - 0.5) * 0.02)) := rfl

lemma updateStar_x (cfg : Config) (width height r : ℝ) (s : Star) :
    (updateStar cfg width height r s).x =
      (if (if s.x + s.vx < 0 then width else s.x + s.vx) > width then 0
       else if s.x + s.vx < 0 then width else s.x + s.vx) := rfl

lemma updateStar_y (cfg : Config) (width height r : ℝ) (s : Star) :
    (updateStar cfg width height r s).y =
      (if (if s.y + s.vy < 0 then height else s.y + s.vy) > height then 0
       else if s.y + s.vy < 0 then height else s.y + s.vy) := rfl

lemma getElem?_mapIdx {α β : Type} (l : List α) (f : ℕ → α → β) (i : ℕ) :
    (l.mapIdx f)[i]? = l[i]?.map (f i) := by
  induction l generalizing f i with
  | nil => simp
  | cons a l ih =>
      rw [List.mapIdx_cons]
      cases i with
      | zero => simp
      | succ n => simp [ih]

lemma updateStars_getElem? (cfg : Config) (width height : ℝ) (rand : ℕ → ℝ)
    (stars : List Star) (i : ℕ) :
    (updateStars cfg width height rand stars)[i]? =
      stars[i]?.map (updateStar cfg width height (rand i)) := by
  unfold updateStars; exact getElem?_mapIdx ..

lemma step_stars_getElem? (cfg : Config) (rand : ℕ → ℝ) (c : Constellation) (i : ℕ) :
    (step cfg rand c).stars[i]? =
      c.stars[i]?.map fun s =>
        applyMouseStar cfg c.mouse (updateStar cfg c.width c.height (rand i) s) := by
  show (applyMouseInfluence cfg c.mouse (updateStars cfg c.width c.height rand c.stars))[i]? = _
  rw [applyMouseInfluence, List.getElem?_map, updateStars_getElem?, Option.map_map]
  rfl

lemma step_stars_length (cfg : Config) (rand : ℕ → ℝ) (c : Constellation) :
    (step cfg rand c).stars.length = c.stars.length := by
  show (applyMouseInfluence cfg c.mouse (updateStars cfg c.width c.height rand c.stars)).length = _
  rw [applyMouseInfluence, List.length_map, updateStars, List.length_mapIdx]

lemma mem_step_stars {cfg : Config} {rand : ℕ → ℝ} {c : Constellation} {s : Star}
    (hs : s ∈ (step cfg rand c).stars) :
    ∃ i s₀, c.stars[i]? = some s₀ ∧
      s = applyMouseStar cfg c.mouse (updateStar cfg c.width c.height (rand i) s₀) := by
  obtain ⟨i, hi, hget⟩ := List.mem_iff_getElem.mp hs
  have h := step_stars_getElem? cfg rand c i
  rw [List.getElem?_eq_getElem hi, hget] at h
  rcases hcs : c.stars[i]? with _ | s₀
  · rw [hcs] at h; simp at h
  · rw [hcs] at h
    exact ⟨i, s₀, hcs, by simpa using h⟩

/-! ### Claim theorems -/

/-- C7: after each `step()`, every star's opacity lies in
`[opacityMin, opacityMax]`: the drift adds `(r - 0.5) * 0.02` and the result
is clamped, so the bounds hold from any starting opacity whenever
`opacityMin ≤ opacityMax`. -/
theorem opacity_clamped_after_step (cfg : Config) (rand : ℕ → ℝ) (c : Constellation)
    (hcfg : cfg.opacityMin ≤ cfg.opacityMax) :
    ∀ s ∈ (step cfg rand c).stars,
      cfg.opacityMin ≤ s.opacity ∧ s.opacity ≤ cfg.opacityMax := by
  intro s hs
  obtain ⟨i, s₀, _, rfl⟩ := mem_step_stars hs
  rw [applyMouseStar_opacity, updateStar_opacity]
  exact ⟨le_max_left _ _, max_le hcfg (min_le_left _ _)⟩

/-- C9: baseline velocities are set once at creation and never mutated:
`step()` preserves every star's `originalVx`/`originalVy` (position update,
wraparound, opacity drift, velocity relaxation and pointer influence leave
them untouched), and `setPointer`/`clearPointer` leave the star list
entirely unchanged. -/
theorem original_velocity_never_mutated (cfg : Config) (rand : ℕ → ℝ)
    (px py : ℝ) (c : Constellation) (i : ℕ) :
    (step cfg rand c).stars[i]?.map Star.originalVx
        = c.stars[i]?.map Star.originalVx
    ∧ (step cfg rand c).stars[i]?.map Star.originalVy
        = c.stars[i]?.map Star.originalVy
    ∧ (setPointer px py c).stars = c.stars
    ∧ (clearPointer c).stars = c.stars := by
  refine ⟨?_, ?_, rfl, rfl⟩ <;>
  · rw [step_stars_getElem?, Option.map_map]
    cases c.stars[i]? <;>
      simp [Function.comp, applyMouseStar_originalVx, applyMouseStar_originalVy,
        updateStar_originalVx, updateStar_originalVy]

/-- C8: pointer-influence boundary cases: at distance exactly 0 the
proportional force factor `(influenceRadius - d) / influenceRadius` equals 1,
and a star at distance at least `influenceRadius` is returned unchanged
(zero added velocity). -/
theorem pointer_influence_boundary (cfg : Config) (m : Mouse) (s : Star)
    (hR : 0 < cfg.mouseInfluence) :
    (mouseDist m s = 0 → pointerForceFactor cfg (mouseDist m s) = 1)
    ∧ (cfg.mouseInfluence ≤ mouseDist m s → applyMouseStar cfg m s = s) := by
  constructor
  · intro h0
    rw [h0, pointerForceFactor, sub_zero, div_self (ne_of_gt hR)]
  · intro hfar
    simp only [applyMouseStar]
    rw [if_neg (not_lt.mpr hfar)]

/-- Witness for C8 at the default configuration: a star under the pointer
gets force factor 1, a star 100 pixels away is unchanged. -/
theorem pointer_influence_boundary_witness :
    pointerForceFactor defaultConfig (mouseDist ⟨3, 4⟩ ⟨3, 4, 1, 1, 0, 0, 0, 0⟩) = 1
    ∧ applyMouseStar defaultConfig ⟨3, 4⟩ ⟨103, 4, 1, 1, 0, 0, 0, 0⟩ =
        ⟨103, 4, 1, 1, 0, 0, 0, 0⟩ := by
  have h1 : mouseDist ⟨3, 4⟩ ⟨3, 4, 1, 1, 0, 0, 0, 0⟩ = 0 := by
    rw [mouseDist]; norm_num
  have h2 : mouseDist ⟨3, 4⟩ ⟨103, 4, 1, 1, 0, 0, 0, 0⟩ = 100 := by
    rw [mouseDist]
    rw [show ((3:ℝ) - 103) * ((3:ℝ) - 103) + ((4:ℝ) - 4) * ((4:ℝ) - 4) = 100 ^ 2 by norm_num]
    exact Real.sqrt_sq (by norm_num)
  constructor
  · exact (pointer_influence_boundary defaultConfig ⟨3, 4⟩ ⟨3, 4, 1, 1, 0, 0, 0, 0⟩
      (by norm_num [defaultConfig])).1 h1
  · refine (pointer_influence_boundary defaultConfig ⟨3, 4⟩ ⟨103, 4, 1, 1, 0, 0, 0, 0⟩
      (by norm_num [defaultConfig])).2 ?_
    rw [h2]; norm_num [defaultConfig]

lemma step_width (cfg : Config) (rand : ℕ → ℝ) (c : Constellation) :
    (step cfg rand c).width = c.width := rfl

lemma step_height (cfg : Config) (rand : ℕ → ℝ) (c : Constellation) :
    (step cfg rand c).height = c.height := rfl

lemma stepN_width (cfg : Config) (rand : ℕ → ℕ → ℝ) (n : ℕ) (c : Constellation) :
    (stepN cfg rand n c).width = c.width := by
  induction n with
  | zero => rfl
  | succ n ih => rw [stepN, step_width, ih]

lemma stepN_height (cfg : Config) (rand : ℕ → ℕ → ℝ) (n : ℕ) (c : Constellation) :
    (stepN cfg rand n c).height = c.height := by
  induction n with
  | zero => rfl
  | succ n ih => rw [stepN, step_height, ih]

lemma initState_width (width height : ℝ) (cfg : Config) (rand : ℕ → ℕ → ℝ) :
    (initState width height cfg rand).width = width := rfl

lemma initState_height (width height : ℝ) (cfg : Config) (rand : ℕ → ℕ → ℝ) :
    (initState width height cfg rand).height = height := rfl

lemma wrap_mem_closed (width v : ℝ) (hw : 0 ≤ width) :
    0 ≤ (if (if v < 0 then width else v) > width then 0
          else if v < 0 then width else v)
    ∧ (if (if v < 0 then width else v) > width then 0
        else if v < 0 then width else v) ≤ width := by
  split_ifs with h1 h2 <;> constructor <;> linarith

/-- C1 as stated is false: the wraparound sets `x = width` when `x` goes
negative, so the half-open bound `x < width` fails.  Concretely: a 100 by 80
surface at the default density yields one star, created at the origin with
velocity -0.6; after one `step()` its x coordinate is exactly 100. -/
theorem position_halfopen_counterexample :
    ¬ (∀ s ∈ (stepN defaultConfig (fun _ _ => 0) 1
          (initState 100 80 defaultConfig fun _ _ => 0)).stars,
        0 ≤ s.x ∧ s.x < 100 ∧ 0 ≤ s.y ∧ s.y < 80) := by
  intro hall
  have hnum : numStars 100 80 defaultConfig = 1 := by
    rw [numStars]
    norm_num [defaultConfig]
  have hstars : (stepN defaultConfig (fun _ _ => 0) 1
      (initState 100 80 defaultConfig fun _ _ => 0)).stars =
      [applyMouseStar defaultConfig ⟨0, 0⟩ (updateStar defaultConfig 100 80 0
        (storeOriginal (mkStarRaw defaultConfig 100 80 fun _ => 0)))] := by
    rw [stepN, stepN, step]
    simp [initState, createStars, hnum, updateStars, applyMouseInfluence]
  have hmem := hall _ (by rw [hstars]; exact List.mem_singleton.mpr rfl)
  have hx : (applyMouseStar defaultConfig ⟨0, 0⟩ (updateStar defaultConfig 100 80 0
      (storeOriginal (mkStarRaw defaultConfig 100 80 fun _ => 0)))).x = 100 := by
    rw [applyMouseStar_x, updateStar_x]
    norm_num [storeOriginal, mkStarRaw, defaultConfig]
  rw [hx] at hmem
  exact absurd hmem.2.1 (by norm_num)

/-- C1 amended: starting from an initialized state, after any number of
`step()` calls every star's position lies in the closed box
`[0, width] × [0, height]` (the value `width` itself is reached when a
coordinate goes negative, so the half-open bound does not hold). -/
theorem position_in_closed_box (cfg : Config) (rand : ℕ → ℕ → ℝ)
    (width height : ℝ) (rand0 : ℕ → ℕ → ℝ) (n : ℕ)
    (hw : 0 ≤ width) (hh : 0 ≤ height)
    (hr0 : ∀ i k, 0 ≤ rand0 i k) (hr1 : ∀ i k, rand0 i k ≤ 1) :
    ∀ s ∈ (stepN cfg rand n (initState width height cfg rand0)).stars,
      0 ≤ s.x ∧ s.x ≤ width ∧ 0 ≤ s.y ∧ s.y ≤ height := by
  cases n with
  | zero =>
      intro s hs
      simp only [stepN, initState, createStars, List.map_map, List.mem_map,
        List.mem_range] at hs
      obtain ⟨i, _, rfl⟩ := hs
      simp only [Function.comp, storeOriginal, mkStarRaw]
      refine ⟨mul_nonneg (hr0 i 0) hw, ?_, mul_nonneg (hr0 i 1) hh, ?_⟩
      · calc rand0 i 0 * width ≤ 1 * width := by
              exact mul_le_mul_of_nonneg_right (hr1 i 0) hw
          _ = width := one_mul width
      · calc rand0 i 1 * height ≤ 1 * height := by
              exact mul_le_mul_of_nonneg_right (hr1 i 1) hh
          _ = height := one_mul height
  | succ n =>
      intro s hs
      rw [stepN] at hs
      obtain ⟨i, s₀, _, rfl⟩ := mem_step_stars hs
      rw [applyMouseStar_x, applyMouseStar_y, updateStar_x, updateStar_y,
        stepN_width, stepN_height, initState_width, initState_height]
      obtain ⟨hx0, hx1⟩ := wrap_mem_closed width (s₀.x + s₀.vx) hw
      obtain ⟨hy0, hy1⟩ := wrap_mem_closed height (s₀.y + s₀.vy) hh
      exact ⟨hx0, hx1, hy0, hy1⟩

/-- Witness for the amended C1: the star of a freshly initialized 100 by 80
surface (all random draws 0) lies in the closed box. -/
theorem position_in_closed_box_witness :
    0 ≤ (storeOriginal (mkStarRaw defaultConfig 100 80 fun _ => 0)).x
    ∧ (storeOriginal (mkStarRaw defaultConfig 100 80 fun _ => 0)).x ≤ 100
    ∧ 0 ≤ (storeOriginal (mkStarRaw defaultConfig 100 80 fun _ => 0)).y
    ∧ (storeOriginal (mkStarRaw defaultConfig 100 80 fun _ => 0)).y ≤ 80 := by
  refine position_in_closed_box defaultConfig (fun _ _ => 0) 100 80
    (fun _ _ => 0) 0 (by norm_num) (by norm_num)
    (fun i k => le_refl 0) (fun i k => by norm_num) _ ?_
  have hnum : numStars 100 80 defaultConfig = 1 := by
    rw [numStars]; norm_num [defaultConfig]
  rw [stepN, initState]
  simp [createStars, hnum]

lemma mem_indexPairs (n i j : ℕ) : (i, j) ∈ indexPairs n ↔ i < j ∧ j < n := by
  unfold indexPairs
  simp only [List.mem_flatMap, List.mem_map, List.mem_filter, List.mem_range,
    decide_eq_true_eq]
  constructor
  · rintro ⟨a, _, b, ⟨hbn, hab⟩, heq⟩
    cases heq
    exact ⟨hab, hbn⟩
  · rintro ⟨hij, hjn⟩
    exact ⟨i, lt_trans hij hjn, j, ⟨hjn, hij⟩, rfl⟩

lemma nodup_indexPairs (n : ℕ) : (indexPairs n).Nodup := by
  unfold indexPairs
  refine List.nodup_flatMap.mpr ⟨?_, ?_⟩
  · intro a _
    exact ((List.nodup_range n).filter _).map fun u v huv => (Prod.ext_iff.mp huv).2
  · refine (List.pairwise_lt_range n).imp ?_
    intro a b hab x hx1 hx2
    simp only [List.mem_map, List.mem_filter] at hx1 hx2
    obtain ⟨u, _, rfl⟩ := hx1
    obtain ⟨v, _, hv⟩ := hx2
    exact absurd ((Prod.ext_iff.mp hv).1) (Nat.ne_of_gt hab)

lemma lt_length_of_getElem? {l : List Star} {i : ℕ} {s : Star}
    (h : l[i]? = some s) : i < l.length := by
  by_contra hni
  rw [List.getElem?_eq_none (le_of_not_lt hni)] at h
  exact Option.noConfusion h

lemma getD_of_getElem? {l : List Star} {i : ℕ} {s : Star}
    (h : l[i]? = some s) : l.getD i default = s := by
  have hi : i < l.length := lt_length_of_getElem? h
  rw [List.getD_eq_getElem l default hi]
  rw [List.getElem?_eq_getElem hi] at h
  exact Option.some_inj.mp h

lemma getElem?_of_lt_length {l : List Star} {i : ℕ} (hi : i < l.length) :
    l[i]? = some (l.getD i default) := by
  rw [List.getElem?_eq_getElem hi, List.getD_eq_getElem l default hi]

lemma mem_linePairs (stars : List Star) (maxDistance : ℝ) (i j : ℕ) :
    (i, j) ∈ linePairs stars maxDistance ↔
      i < j ∧ ∃ si sj, stars[i]? = some si ∧ stars[j]? = some sj ∧
        starDist si sj < maxDistance := by
  rw [linePairs, List.mem_filter]
  simp only [decide_eq_true_eq, mem_indexPairs]
  constructor
  · rintro ⟨⟨hij, hjn⟩, hd⟩
    exact ⟨hij, stars.getD i default, stars.getD j default,
      getElem?_of_lt_length (lt_trans hij hjn), getElem?_of_lt_length hjn, hd⟩
  · rintro ⟨hij, si, sj, hsi, hsj, hd⟩
    rw [getD_of_getElem? hsi, getD_of_getElem? hsj]
    exact ⟨⟨hij, lt_length_of_getElem? hsj⟩, hd⟩

lemma filterMap_ite_eq_filter_map {α β : Type} (l : List α) (q : α → Prop)
    (f : α → β) :
    (l.filterMap fun p => if q p then some (f p) else none) =
      (l.filter fun p => q p).map f := by
  induction l with
  | nil => rfl
  | cons a l ih =>
      rw [List.filterMap_cons, List.filter_cons]
      by_cases h : q a
      · simp [h, ih]
      · simp [h, ih]

lemma createLines_eq_map_linePairs (stars : List Star) (maxDistance : ℝ) :
    createLines stars maxDistance =
      (linePairs stars maxDistance).map (mkLine stars maxDistance) := by
  have h : createLines stars maxDistance =
      (indexPairs stars.length).filterMap fun p =>
        if starDist (stars.getD p.1 default) (stars.getD p.2 default) < maxDistance
        then some (mkLine stars maxDistance p) else none := rfl
  rw [h, filterMap_ite_eq_filter_map]
  rfl

/-- C2: the edge set rebuilt by `step()` is exactly the strict-distance
proximity graph: `lins` is the image of the pair list `linePairs`, the pair
list is duplicate-free, and a pair `(i, j)` is listed iff `i < j` and the
two stars are at Euclidean distance strictly below `maxDistance` (so no
self pairs, no duplicates, nothing at or beyond the threshold).  The last
two conjuncts show the lines are built from the same positions the final
star list has: pointer influence changes only velocities. -/
theorem edge_set_exact (stars : List Star) (maxDistance : ℝ)
    (cfg : Config) (rand : ℕ → ℝ) (c : Constellation) (i j : ℕ) :
    (createLines stars maxDistance =
        (linePairs stars maxDistance).map (mkLine stars maxDistance))
    ∧ (linePairs stars maxDistance).Nodup
    ∧ ((i, j) ∈ linePairs stars maxDistance ↔
        i < j ∧ ∃ si sj, stars[i]? = some si ∧ stars[j]? = some sj ∧
          starDist si sj < maxDistance)
    ∧ (step cfg rand c).lins =
        createLines (updateStars cfg c.width c.height rand c.stars) cfg.maxDistance
    ∧ (step cfg rand c).stars[i]?.map Star.x
        = (updateStars cfg c.width c.height rand c.stars)[i]?.map Star.x
    ∧ (step cfg rand c).stars[i]?.map Star.y
        = (updateStars cfg c.width c.height rand c.stars)[i]?.map Star.y := by
  refine ⟨createLines_eq_map_linePairs stars maxDistance,
    (nodup_indexPairs stars.length).filter _,
    mem_linePairs stars maxDistance i j, rfl, ?_, ?_⟩ <;>
  · show ((applyMouseInfluence cfg c.mouse
      (updateStars cfg c.width c.height rand c.stars))[i]?).map _ = _
    rw [applyMouseInfluence, List.getElem?_map, Option.map_map]
    cases (updateStars cfg c.width c.height rand c.stars)[i]? <;>
      simp [Function.comp, applyMouseStar_x, applyMouseStar_y]

/-- C3: every edge pushed by `createLines` carries
`opacity = (maxDistance - d) / maxDistance * 0.5` where `d` is the stored
Euclidean distance of its two endpoints, and `0 ≤ d < maxDistance`. -/
theorem edge_opacity_formula (stars : List Star) (maxDistance : ℝ) :
    ∀ e ∈ createLines stars maxDistance,
      e.opacity = (maxDistance - e.distance) / maxDistance * 0.5
      ∧ e.distance = starDist e.start e.stop
      ∧ 0 ≤ e.distance ∧ e.distance < maxDistance := by
  intro e he
  rw [createLines, List.mem_filterMap] at he
  obtain ⟨p, _, hfp⟩ := he
  by_cases hd : starDist (stars.getD p.1 default) (stars.getD p.2 default) < maxDistance
  · rw [if_pos hd] at hfp
    cases Option.some_inj.mp hfp
    exact ⟨rfl, rfl, Real.sqrt_nonneg _, hd⟩
  · rw [if_neg hd] at hfp
    exact Option.noConfusion hfp

/-- Witness for C7: the single star of a 100 by 80 surface (all draws 0)
has its opacity inside `[0.2, 0.8]` after one frame. -/
theorem opacity_clamped_after_step_witness :
    defaultConfig.opacityMin ≤ (applyMouseStar defaultConfig ⟨0, 0⟩
      (updateStar defaultConfig 100 80 0
        (storeOriginal (mkStarRaw defaultConfig 100 80 fun _ => 0)))).opacity
    ∧ (applyMouseStar defaultConfig ⟨0, 0⟩
      (updateStar defaultConfig 100 80 0
        (storeOriginal (mkStarRaw defaultConfig 100 80 fun _ => 0)))).opacity
        ≤ defaultConfig.opacityMax := by
  refine opacity_clamped_after_step defaultConfig (fun _ => 0)
    (initState 100 80 defaultConfig fun _ _ => 0) (by norm_num [defaultConfig]) _ ?_
  have hnum : numStars 100 80 defaultConfig = 1 := by
    rw [numStars]; norm_num [defaultConfig]
  rw [step]
  simp [initState, createStars, hnum, updateStars, applyMouseInfluence]

/-- Witness for C3: two stars at distance 5 produce one edge and its fields
satisfy the opacity formula. -/
theorem edge_opacity_formula_witness :
    (mkLine [⟨0, 0, 1, 0.5, 0, 0, 0, 0⟩, ⟨3, 4, 1, 0.5, 0, 0, 0, 0⟩] 130 (0, 1)).opacity
      = (130 - (mkLine [⟨0, 0, 1, 0.5, 0, 0, 0, 0⟩,
          ⟨3, 4, 1, 0.5, 0, 0, 0, 0⟩] 130 (0, 1)).distance) / 130 * 0.5
    ∧ (mkLine [⟨0, 0, 1, 0.5, 0, 0, 0, 0⟩, ⟨3, 4, 1, 0.5, 0, 0, 0, 0⟩] 130 (0, 1)).distance
      = starDist (mkLine [⟨0, 0, 1, 0.5, 0, 0, 0, 0⟩,
          ⟨3, 4, 1, 0.5, 0, 0, 0, 0⟩] 130 (0, 1)).start
        (mkLine [⟨0, 0, 1, 0.5, 0, 0, 0, 0⟩, ⟨3, 4, 1, 0.5, 0, 0, 0, 0⟩] 130 (0, 1)).stop
    ∧ 0 ≤ (mkLine [⟨0, 0, 1, 0.5, 0, 0, 0, 0⟩, ⟨3, 4, 1, 0.5, 0, 0, 0, 0⟩] 130 (0, 1)).distance
    ∧ (mkLine [⟨0, 0, 1, 0.5, 0, 0, 0, 0⟩,
        ⟨3, 4, 1, 0.5, 0, 0, 0, 0⟩] 130 (0, 1)).distance < 130 := by
  refine edge_opacity_formula [⟨0, 0, 1, 0.5, 0, 0, 0, 0⟩, ⟨3, 4, 1, 0.5, 0, 0, 0, 0⟩] 130 _ ?_
  have hd : starDist (⟨0, 0, 1, 0.5, 0, 0, 0, 0⟩ : Star) ⟨3, 4, 1, 0.5, 0, 0, 0, 0⟩ = 5 := by
    rw [starDist]
    rw [show ((0:ℝ) - 3) * ((0:ℝ) - 3) + ((0:ℝ) - 4) * ((0:ℝ) - 4) = 5 ^ 2 by norm_num]
    exact Real.sqrt_sq (by norm_num)
  rw [createLines_eq_map_linePairs]
  refine List.mem_map_of_mem _ ?_
  rw [mem_linePairs]
  exact ⟨Nat.zero_lt_one, _, _, rfl, rfl, by
    show starDist (⟨0, 0, 1, 0.5, 0, 0, 0, 0⟩ : Star) ⟨3, 4, 1, 0.5, 0, 0, 0, 0⟩ < 130
    rw [hd]; norm_num⟩

lemma applyMouseStar_of_near {cfg : Config} {m : Mouse} {s : Star}
    (h : mouseDist m s < cfg.mouseInfluence) :
    (applyMouseStar cfg m s).vx
        = s.vx + (m.x - s.x) * cfg.mouseForce * pointerForceFactor cfg (mouseDist m s)
    ∧ (applyMouseStar cfg m s).vy
        = s.vy + (m.y - s.y) * cfg.mouseForce * pointerForceFactor cfg (mouseDist m s) := by
  simp only [applyMouseStar]
  rw [if_pos h]
  exact ⟨rfl, rfl⟩

/-- The pointer position used in the C4 analysis. -/
def mouseO : Mouse := ⟨0, 0⟩

/-- A star 10 pixels from the pointer. -/
def starNear : Star := ⟨10, 0, 1, 0.5, 0, 0, 0, 0⟩

/-- A star 50 pixels from the pointer. -/
def starFarther : Star := ⟨50, 0, 1, 0.5, 0, 0, 0, 0⟩

lemma mouseDist_mouseO_starNear : mouseDist mouseO starNear = 10 := by
  rw [mouseDist, mouseO, starNear]
  rw [show ((0:ℝ) - 10) * ((0:ℝ) - 10) + ((0:ℝ) - 0) * ((0:ℝ) - 0) = 10 ^ 2 by norm_num]
  exact Real.sqrt_sq (by norm_num)

lemma mouseDist_mouseO_starFarther : mouseDist mouseO starFarther = 50 := by
  rw [mouseDist, mouseO, starFarther]
  rw [show ((0:ℝ) - 50) * ((0:ℝ) - 50) + ((0:ℝ) - 0) * ((0:ℝ) - 0) = 50 ^ 2 by norm_num]
  exact Real.sqrt_sq (by norm_num)

/-- C4 as stated is false: with the default config and the pointer at the
origin, the star at distance 10 (inside the radius, positive distance)
receives a velocity increment of magnitude 0.00045, strictly smaller than
the 0.00125 received by the star at distance 50: the increment magnitude
`d * mouseForce * (R - d) / R` is not monotone in `d`. -/
theorem closer_point_weaker_increment :
    mouseDist mouseO starNear = 10
    ∧ mouseDist mouseO starFarther = 50
    ∧ (0:ℝ) < 10 ∧ (10:ℝ) < 50 ∧ (50:ℝ) < defaultConfig.mouseInfluence
    ∧ Real.sqrt (((applyMouseStar defaultConfig mouseO starNear).vx - starNear.vx) ^ 2
        + ((applyMouseStar defaultConfig mouseO starNear).vy - starNear.vy) ^ 2)
      < Real.sqrt (((applyMouseStar defaultConfig mouseO starFarther).vx - starFarther.vx) ^ 2
        + ((applyMouseStar defaultConfig mouseO starFarther).vy - starFarther.vy) ^ 2) := by
  obtain ⟨hAx, hAy⟩ := applyMouseStar_of_near
    (show mouseDist mouseO starNear < defaultConfig.mouseInfluence by
      rw [mouseDist_mouseO_starNear]; norm_num [defaultConfig])
  obtain ⟨hBx, hBy⟩ := applyMouseStar_of_near
    (show mouseDist mouseO starFarther < defaultConfig.mouseInfluence by
      rw [mouseDist_mouseO_starFarther]; norm_num [defaultConfig])
  have eA : ((applyMouseStar defaultConfig mouseO starNear).vx - starNear.vx) ^ 2
      + ((applyMouseStar defaultConfig mouseO starNear).vy - starNear.vy) ^ 2
      = (0.00045 : ℝ) ^ 2 := by
    rw [hAx, hAy, mouseDist_mouseO_starNear]
    norm_num [mouseO, starNear, defaultConfig, pointerForceFactor]
  have eB : ((applyMouseStar defaultConfig mouseO starFarther).vx - starFarther.vx) ^ 2
      + ((applyMouseStar defaultConfig mouseO starFarther).vy - starFarther.vy) ^ 2
      = (0.00125 : ℝ) ^ 2 := by
    rw [hBx, hBy, mouseDist_mouseO_starFarther]
    norm_num [mouseO, starFarther, defaultConfig, pointerForceFactor]
  refine ⟨mouseDist_mouseO_starNear, mouseDist_mouseO_starFarther,
    by norm_num, by norm_num, by norm_num [defaultConfig], ?_⟩
  rw [eA, eB, Real.sqrt_sq (by norm_num), Real.sqrt_sq (by norm_num)]
  norm_num

/-- C4 amended: the proportional force factor
`(influenceRadius - d) / influenceRadius` (the linear falloff actually
applied to both velocity components) is strictly larger for the closer
point; the magnitude of the full increment, however, also carries the
factor `d` and need not be larger for the closer point. -/
theorem pointer_force_factor_stronger_when_closer (cfg : Config) (m : Mouse)
    (s1 s2 : Star) (hR : 0 < cfg.mouseInfluence)
    (h0 : 0 < mouseDist m s1)
    (h12 : mouseDist m s1 < mouseDist m s2)
    (h2R : mouseDist m s2 < cfg.mouseInfluence) :
    pointerForceFactor cfg (mouseDist m s2) < pointerForceFactor cfg (mouseDist m s1)
    ∧ (applyMouseStar cfg m s1).vx
        = s1.vx + (m.x - s1.x) * cfg.mouseForce * pointerForceFactor cfg (mouseDist m s1)
    ∧ (applyMouseStar cfg m s1).vy
        = s1.vy + (m.y - s1.y) * cfg.mouseForce * pointerForceFactor cfg (mouseDist m s1)
    ∧ (applyMouseStar cfg m s2).vx
        = s2.vx + (m.x - s2.x) * cfg.mouseForce * pointerForceFactor cfg (mouseDist m s2)
    ∧ (applyMouseStar cfg m s2).vy
        = s2.vy + (m.y - s2.y) * cfg.mouseForce * pointerForceFactor cfg (mouseDist m s2) := by
  refine ⟨?_, (applyMouseStar_of_near (lt_trans h12 h2R)).1,
    (applyMouseStar_of_near (lt_trans h12 h2R)).2,
    (applyMouseStar_of_near h2R).1, (applyMouseStar_of_near h2R).2⟩
  rw [pointerForceFactor, pointerForceFactor, div_lt_div_iff₀ hR hR]
  nlinarith [h12, hR]

/-- Witness for the amended C4: at the default config the factor for the
star at distance 50 is strictly below the factor for the star at distance
10. -/
theorem pointer_force_factor_stronger_when_closer_witness :
    pointerForceFactor defaultConfig (mouseDist mouseO starFarther)
      < pointerForceFactor defaultConfig (mouseDist mouseO starNear) :=
  (pointer_force_factor_stronger_when_closer defaultConfig mouseO starNear starFarther
    (by norm_num [defaultConfig])
    (by rw [mouseDist_mouseO_starNear]; norm_num)
    (by rw [mouseDist_mouseO_starNear, mouseDist_mouseO_starFarther]; norm_num)
    (by rw [mouseDist_mouseO_starFarther]; norm_num [defaultConfig])).1

lemma applyMouseStar_of_far {cfg : Config} {m : Mouse} {s : Star}
    (h : cfg.mouseInfluence ≤ mouseDist m s) : applyMouseStar cfg m s = s := by
  simp only [applyMouseStar]
  rw [if_neg (not_lt.mpr h)]

lemma mouseDist_nonneg (m : Mouse) (s : Star) : 0 ≤ mouseDist m s :=
  Real.sqrt_nonneg _

/-- The residual of `vx` against the baseline velocity after `n` frames. -/
def vxResidual (cfg : Config) (width height : ℝ) (rs : ℕ → ℝ) (m : Mouse)
    (s : Star) (n : ℕ) : ℝ :=
  (starFrameStepN cfg width height rs m n s).vx
    - (starFrameStepN cfg width height rs m n s).originalVx

/-- The residual of `vy` against the baseline velocity after `n` frames. -/
def vyResidual (cfg : Config) (width height : ℝ) (rs : ℕ → ℝ) (m : Mouse)
    (s : Star) (n : ℕ) : ℝ :=
  (starFrameStepN cfg width height rs m n s).vy
    - (starFrameStepN cfg width height rs m n s).originalVy

/-- C5: a star that receives zero pointer influence on every frame (its
post-update distance to the pointer never drops below the influence radius)
has its velocity residual multiplied by exactly 0.99 each frame; hence the
residual equals `0.99 ^ n` times the initial one, its absolute value
strictly decreases, it never reaches 0 when the initial velocity differs
from the baseline, and it tends to 0; the same holds for `vy`. -/
theorem velocity_relaxation_geometric (cfg : Config) (width height : ℝ)
    (rs : ℕ → ℝ) (m : Mouse) (s : Star)
    (hfar : ∀ n, cfg.mouseInfluence ≤ mouseDist m
      (updateStar cfg width height (rs n) (starFrameStepN cfg width height rs m n s)))
    (hvx : s.vx ≠ s.originalVx) (hvy : s.vy ≠ s.originalVy) :
    (∀ n, vxResidual cfg width height rs m s (n + 1)
        = 0.99 * vxResidual cfg width height rs m s n)
    ∧ (∀ n, vxResidual cfg width height rs m s n = 0.99 ^ n * (s.vx - s.originalVx))
    ∧ (∀ n, |vxResidual cfg width height rs m s (n + 1)|
        < |vxResidual cfg width height rs m s n|)
    ∧ (∀ n, vxResidual cfg width height rs m s n ≠ 0)
    ∧ Filter.Tendsto (fun n => |vxResidual cfg width height rs m s n|)
        Filter.atTop (nhds 0)
    ∧ (∀ n, vyResidual cfg width height rs m s (n + 1)
        = 0.99 * vyResidual cfg width height rs m s n)
    ∧ (∀ n, vyResidual cfg width height rs m s n = 0.99 ^ n * (s.vy - s.originalVy))
    ∧ (∀ n, |vyResidual cfg width height rs m s (n + 1)|
        < |vyResidual cfg width height rs m s n|)
    ∧ (∀ n, vyResidual cfg width height rs m s n ≠ 0)
    ∧ Filter.Tendsto (fun n => |vyResidual cfg width height rs m s n|)
        Filter.atTop (nhds 0) := by
  have hiter : ∀ n, starFrameStepN cfg width height rs m (n + 1) s
      = updateStar cfg width height (rs n) (starFrameStepN cfg width height rs m n s) := by
    intro n
    show starFrameStep cfg width height (rs n) m (starFrameStepN cfg width height rs m n s) = _
    rw [starFrameStep, applyMouseStar_of_far (hfar n)]
  have hovx : ∀ n, (starFrameStepN cfg width height rs m n s).originalVx = s.originalVx := by
    intro n
    induction n with
    | zero => rfl
    | succ n ih => rw [hiter n, updateStar_originalVx, ih]
  have hovy : ∀ n, (starFrameStepN cfg width height rs m n s).originalVy = s.originalVy := by
    intro n
    induction n with
    | zero => rfl
    | succ n ih => rw [hiter n, updateStar_originalVy, ih]
  have hresx : ∀ n, vxResidual cfg width height rs m s (n + 1)
      = 0.99 * vxResidual cfg width height rs m s n := by
    intro n
    rw [vxResidual, vxResidual, hovx, hovx, hiter n, updateStar_vx, hovx]
    ring
  have hresy : ∀ n, vyResidual cfg width height rs m s (n + 1)
      = 0.99 * vyResidual cfg width height rs m s n := by
    intro n
    rw [vyResidual, vyResidual, hovy, hovy, hiter n, updateStar_vy, hovy]
    ring
  have hpowx : ∀ n, vxResidual cfg width height rs m s n
      = 0.99 ^ n * (s.vx - s.originalVx) := by
    intro n
    induction n with
    | zero => rw [vxResidual]; show s.vx - s.originalVx = _; rw [pow_zero, one_mul]
    | succ n ih => rw [hresx n, ih, pow_succ]; ring
  have hpowy : ∀ n, vyResidual cfg width height rs m s n
      = 0.99 ^ n * (s.vy - s.originalVy) := by
    intro n
    induction n with
    | zero => rw [vyResidual]; show s.vy - s.originalVy = _; rw [pow_zero, one_mul]
    | succ n ih => rw [hresy n, ih, pow_succ]; ring
  have hnex : ∀ n, vxResidual cfg width height rs m s n ≠ 0 := by
    intro n
    rw [hpowx n]
    exact mul_ne_zero (pow_ne_zero n (by norm_num)) (sub_ne_zero.mpr hvx)
  have hney : ∀ n, vyResidual cfg width height rs m s n ≠ 0 := by
    intro n
    rw [hpowy n]
    exact mul_ne_zero (pow_ne_zero n (by norm_num)) (sub_ne_zero.mpr hvy)
  have habsx : ∀ n, |vxResidual cfg width height rs m s (n + 1)|
      < |vxResidual cfg width height rs m s n| := by
    intro n
    rw [hresx n, abs_mul, abs_of_pos (show (0:ℝ) < 0.99 by norm_num)]
    have h1 : 0 < |vxResidual cfg width height rs m s n| := abs_pos.mpr (hnex n)
    nlinarith
  have habsy : ∀ n, |vyResidual cfg width height rs m s (n + 1)|
      < |vyResidual cfg width height rs m s n| := by
    intro n
    rw [hresy n, abs_mul, abs_of_pos (show (0:ℝ) < 0.99 by norm_num)]
    have h1 : 0 < |vyResidual cfg width height rs m s n| := abs_pos.mpr (hney n)
    nlinarith
  have htendx : Filter.Tendsto (fun n => |vxResidual cfg width height rs m s n|)
      Filter.atTop (nhds 0) := by
    have h1 : (fun n => |vxResidual cfg width height rs m s n|)
        = fun n => 0.99 ^ n * |s.vx - s.originalVx| := by
      funext n
      rw [hpowx n, abs_mul, abs_pow, abs_of_pos (show (0:ℝ) < 0.99 by norm_num)]
    rw [h1]
    have h2 := (tendsto_pow_atTop_nhds_zero_of_lt_one
      (show (0:ℝ) ≤ 0.99 by norm_num) (by norm_num)).mul_const |s.vx - s.originalVx|
    rw [zero_mul] at h2
    exact h2
  have htendy : Filter.Tendsto (fun n => |vyResidual cfg width height rs m s n|)
      Filter.atTop (nhds 0) := by
    have h1 : (fun n => |vyResidual cfg width height rs m s n|)
        = fun n => 0.99 ^ n * |s.vy - s.originalVy| := by
      funext n
      rw [hpowy n, abs_mul, abs_pow, abs_of_pos (show (0:ℝ) < 0.99 by norm_num)]
    rw [h1]
    have h2 := (tendsto_pow_atTop_nhds_zero_of_lt_one
      (show (0:ℝ) ≤ 0.99 by norm_num) (by norm_num)).mul_const |s.vy - s.originalVy|
    rw [zero_mul] at h2
    exact h2
  exact ⟨hresx, hpowx, habsx, hnex, htendx, hresy, hpowy, habsy, hney, htendy⟩

/-- A configuration whose influence radius is 0: no star is ever inside it. -/
def relaxCfg : Config := { defaultConfig with mouseInfluence := 0 }

/-- A star whose velocity differs from its baseline. -/
def relaxStar : Star := ⟨500, 0, 1, 0.5, 1, 1, 0, 0⟩

/-- Witness for C5: with a zero influence radius the pointer never acts and
the velocity residual of a concrete star tends to 0. -/
theorem velocity_relaxation_geometric_witness :
    Filter.Tendsto (fun n => |vxResidual relaxCfg 1000 1000 (fun _ => 0) mouseO relaxStar n|)
      Filter.atTop (nhds 0) :=
  (velocity_relaxation_geometric relaxCfg 1000 1000 (fun _ => 0) mouseO relaxStar
    (fun n => mouseDist_nonneg mouseO _)
    (by norm_num [relaxStar]) (by norm_num [relaxStar])).2.2.2.2.1

lemma createStars_length (width height : ℝ) (cfg : Config) (rand : ℕ → ℕ → ℝ) :
    (createStars width height cfg rand).length = numStars width height cfg := by
  rw [createStars, List.length_map, List.length_map, List.length_range]

/-- C6: `createStars` makes exactly `floor(width * height / density)` stars
(60 on an 800 by 600 surface at density 8000), silently makes zero stars
when `area / density < 1`, and rebuilding on an existing state replaces the
star list with one that depends only on the surface size, not on the
previous stars. -/
theorem createStars_count_replace (width height : ℝ) (cfg : Config)
    (rand : ℕ → ℕ → ℝ) (c1 c2 : Constellation) :
    (createStars width height cfg rand).length
        = (⌊width * height / cfg.starDensity⌋).toNat
    ∧ (createStars 800 600 defaultConfig rand).length = 60
    ∧ (width * height / cfg.starDensity < 1 → createStars width height cfg rand = [])
    ∧ (c1.width = c2.width → c1.height = c2.height →
        (recreateStars cfg rand c1).stars = (recreateStars cfg rand c2).stars) := by
  refine ⟨createStars_length width height cfg rand, ?_, ?_, ?_⟩
  · rw [createStars_length, numStars]
    norm_num [defaultConfig]
    rfl
  · intro h
    have h0 : numStars width height cfg = 0 := by
      rw [numStars]
      have hf : ⌊width * height / cfg.starDensity⌋ < 1 :=
        Int.floor_lt.mpr (by exact_mod_cast h)
      omega
    rw [createStars, h0]
    rfl
  · intro hw hh
    show createStars c1.width c1.height cfg rand = createStars c2.width c2.height cfg rand
    rw [hw, hh]

/-- Witness for C6: a 10 by 10 surface at density 8000 yields no stars, and
recreating on two states with equal dimensions but different old star lists
gives the same new star list. -/
theorem createStars_count_replace_witness :
    createStars 10 10 defaultConfig (fun _ _ => 0) = []
    ∧ (recreateStars defaultConfig (fun _ _ => 0) ⟨[], [], ⟨0, 0⟩, 10, 10⟩).stars
      = (recreateStars defaultConfig (fun _ _ => 0)
          ⟨[⟨1, 1, 1, 1, 1, 1, 1, 1⟩], [], ⟨5, 5⟩, 10, 10⟩).stars := by
  obtain ⟨-, -, h3, h4⟩ := createStars_count_replace 10 10 defaultConfig
    (fun _ _ => 0) ⟨[], [], ⟨0, 0⟩, 10, 10⟩ ⟨[⟨1, 1, 1, 1, 1, 1, 1, 1⟩], [], ⟨5, 5⟩, 10, 10⟩
  exact ⟨h3 (by norm_num [defaultConfig]), h4 rfl rfl⟩

lemma createStars_velocity_bounds (width height : ℝ) (cfg : Config)
    (rand : ℕ → ℕ → ℝ)
    (hr0 : ∀ i k, 0 ≤ rand i k) (hr1 : ∀ i k, rand i k < 1)
    (hspeed : cfg.speedMin < cfg.speedMax) :
    ∀ s ∈ createStars width height cfg rand,
      (cfg.speedMin - (cfg.speedMax - cfg.speedMin) / 2 ≤ s.vx
        ∧ s.vx < cfg.speedMin + (cfg.speedMax - cfg.speedMin) / 2)
      ∧ (cfg.speedMin - (cfg.speedMax - cfg.speedMin) / 2 ≤ s.vy
        ∧ s.vy < cfg.speedMin + (cfg.speedMax - cfg.speedMin) / 2)
      ∧ s.originalVx = s.vx ∧ s.originalVy = s.vy := by
  intro s hs
  rw [createStars] at hs
  simp only [List.map_map, List.mem_map, List.mem_range] at hs
  obtain ⟨i, -, rfl⟩ := hs
  simp only [Function.comp, storeOriginal, mkStarRaw]
  have hd : (0:ℝ) ≤ cfg.speedMax - cfg.speedMin := sub_nonneg.mpr hspeed.le
  have hdp : (0:ℝ) < cfg.speedMax - cfg.speedMin := sub_pos.mpr hspeed
  refine ⟨⟨?_, ?_⟩, ⟨?_, ?_⟩, trivial, trivial⟩
  · nlinarith [mul_nonneg (hr0 i 4) hd]
  · nlinarith [mul_lt_mul_of_pos_right (hr1 i 4) hdp]
  · nlinarith [mul_nonneg (hr0 i 5) hd]
  · nlinarith [mul_lt_mul_of_pos_right (hr1 i 5) hdp]

/-- C10: each initial velocity component `(r - 0.5) * (speedMax - speedMin)
+ speedMin` with `r` in `[0, 1)` lies in the half-open interval
`[speedMin - (speedMax - speedMin)/2, speedMin + (speedMax - speedMin)/2)`,
the baseline equals it, and with the default config (`speed` -0.3..0.3)
every initial `vx` and `vy` lies in `[-0.6, 0)` — never positive. -/
theorem initial_velocity_range (width height : ℝ) (cfg : Config)
    (rand : ℕ → ℕ → ℝ)
    (hr0 : ∀ i k, 0 ≤ rand i k) (hr1 : ∀ i k, rand i k < 1)
    (hspeed : cfg.speedMin < cfg.speedMax) :
    (∀ s ∈ createStars width height cfg rand,
      (cfg.speedMin - (cfg.speedMax - cfg.speedMin) / 2 ≤ s.vx
        ∧ s.vx < cfg.speedMin + (cfg.speedMax - cfg.speedMin) / 2)
      ∧ (cfg.speedMin - (cfg.speedMax - cfg.speedMin) / 2 ≤ s.vy
        ∧ s.vy < cfg.speedMin + (cfg.speedMax - cfg.speedMin) / 2)
      ∧ s.originalVx = s.vx ∧ s.originalVy = s.vy)
    ∧ (∀ s ∈ createStars width height defaultConfig rand,
        (-0.6 ≤ s.vx ∧ s.vx < 0) ∧ (-0.6 ≤ s.vy ∧ s.vy < 0)) := by
  constructor
  · exact createStars_velocity_bounds width height cfg rand hr0 hr1 hspeed
  · intro s hs
    obtain ⟨⟨h1, h2⟩, ⟨h3, h4⟩, -, -⟩ := createStars_velocity_bounds width height
      defaultConfig rand hr0 hr1 (by norm_num [defaultConfig]) s hs
    norm_num [defaultConfig] at h1 h2 h3 h4
    exact ⟨⟨by linarith, by linarith⟩, by linarith, by linarith⟩

/-- Witness for C10: the single star of a 100 by 80 surface with all draws 0
has `vx` and `vy` in `[-0.6, 0)`. -/
theorem initial_velocity_range_witness :
    (-0.6 ≤ (storeOriginal (mkStarRaw defaultConfig 100 80 fun _ => 0)).vx
      ∧ (storeOriginal (mkStarRaw defaultConfig 100 80 fun _ => 0)).vx < 0)
    ∧ (-0.6 ≤ (storeOriginal (mkStarRaw defaultConfig 100 80 fun _ => 0)).vy
      ∧ (storeOriginal (mkStarRaw defaultConfig 100 80 fun _ => 0)).vy < 0) := by
  refine (initial_velocity_range 100 80 defaultConfig (fun _ _ => 0)
    (fun i k => le_refl 0) (fun i k => by norm_num)
    (by norm_num [defaultConfig])).2 _ ?_
  have hnum : numStars 100 80 defaultConfig = 1 := by
    rw [numStars]; norm_num [defaultConfig]
  rw [createStars, hnum]
  simp

end

end ConstellationSpec
